import Mathlib

/-!
Shallow embedding of two data-juicer operators:
  * `AverageLineLengthFilter` (src/data_juicer/ops/filter/average_line_length_filter.py)
  * `GenerateInstructionMapper` (src/data_juicer/ops/mapper/generate_instruction_mapper.py)

Python strings are modelled as lists of Unicode code points (`List Char`),
Python floats as rationals (`ℚ`), Python dicts as ordered association lists.
External collaborators (the `re` regex engine, `json.loads`, the `rouge`
scorer, the inference model) are modelled as opaque function parameters.
-/

namespace DataJuicer

/-- A Python string: a sequence of Unicode code points. `len` is `List.length`. -/
abbrev Str := List Char

/-- The line-boundary characters of Python `str.splitlines`
(`\r\n` is additionally treated as a single boundary below). -/
def isLineBreak (c : Char) : Bool :=
  c == '\n' || c == '\r' || c == '\x0b' || c == '\x0c' || c == '\x1c' ||
  c == '\x1d' || c == '\x1e' || c == '\x85' || c == '\u2028' || c == '\u2029'

/-- Worker for `splitlines`: `acc` holds the reversed current line. -/
def splitlinesAux : Str → Str → List Str
  | [], acc => if acc = [] then [] else [acc.reverse]
  | '\r' :: '\n' :: rest, acc => acc.reverse :: splitlinesAux rest []
  | c :: rest, acc =>
      if isLineBreak c then acc.reverse :: splitlinesAux rest []
      else splitlinesAux rest (c :: acc)

/-- Python `str.splitlines()`: split on line boundaries, boundaries not kept,
a trailing fragment without a final boundary forms a last line, and the
empty string yields no lines. -/
def splitlines (s : Str) : List Str := splitlinesAux s []

/-- The characters stripped by Python `str.strip()` (Unicode whitespace). -/
def isPySpace (c : Char) : Bool :=
  c == ' ' || c == '\t' || c == '\n' || c == '\r' || c == '\x0b' ||
  c == '\x0c' || c == '\x1c' || c == '\x1d' || c == '\x1e' || c == '\x1f' ||
  c == '\x85' || c == '\xa0' || c == '\u1680' || c == '\u2000' ||
  c == '\u2001' || c == '\u2002' || c == '\u2003' || c == '\u2004' ||
  c == '\u2005' || c == '\u2006' || c == '\u2007' || c == '\u2008' ||
  c == '\u2009' || c == '\u200a' || c == '\u2028' || c == '\u2029' ||
  c == '\u202f' || c == '\u205f' || c == '\u3000'

/-- Python `str.strip()`: drop leading and trailing whitespace. -/
def pyStrip (s : Str) : Str :=
  ((s.dropWhile isPySpace).reverse.dropWhile isPySpace).reverse

/-- Membership test of a Python dict key (`k in d`). -/
def dictContains {α : Type} (d : List (String × α)) (k : String) : Bool :=
  d.any (fun p => p.1 == k)

/-- Python dict lookup `d[k]`, `none` when the key is absent (a `KeyError`). -/
def dictGet {α : Type} (d : List (String × α)) (k : String) : Option α :=
  (d.find? (fun p => p.1 == k)).map (fun p => p.2)

/-- Python dict assignment `d[k] = v`: overwrite in place, else append. -/
def dictSet {α : Type} : List (String × α) → String → α → List (String × α)
  | [], k, v => [(k, v)]
  | p :: d, k, v => if p.1 == k then (k, v) :: d else p :: dictSet d k v

/-- `StatsKeys.avg_line_length`, the stats key written by the filter. -/
def avgLineLengthKey : String := "avg_line_length"

/-- `InterVars.lines`, the context key for the shared line split. -/
def linesKey : String := "lines"

/-- A per-sample Stats record: metric name to scalar value. -/
abbrev StatDict := List (String × ℚ)

/-- A per-sample Context record: intermediate-variable name to line list. -/
abbrev ContextDict := List (String × List Str)

/-- A batch of samples as consumed by `compute_stats`: aligned lists of
texts (`samples[self.text_key]`), Stats records (`samples[Fields.stats]`)
and Context records (`samples[Fields.context]`). -/
structure Samples where
  text : List Str
  stats : List StatDict
  context : List ContextDict

/-- One iteration of the `compute_stats` loop of `AverageLineLengthFilter`
on sample `i`: skip when `avg_line_length` is already present; otherwise take
the line list from the context cache when `context` is on and it is cached,
else split the text (storing the split when `context` is on), and store
`len(text) / len(lines)` (`0.0` when there are no lines). -/
def computeStatsOne (ctx : Bool) (t : Str) (st : StatDict) (cx : ContextDict) :
    StatDict × ContextDict :=
  if dictContains st avgLineLengthKey then (st, cx)
  else
    let lines :=
      if ctx && dictContains cx linesKey then (dictGet cx linesKey).getD []
      else splitlines t
    let cx' :=
      if ctx && !(dictContains cx linesKey) then dictSet cx linesKey (splitlines t)
      else cx
    let value : ℚ :=
      if lines.length ≠ 0 then (t.length : ℚ) / (lines.length : ℚ) else 0
    (dictSet st avgLineLengthKey value, cx')

/-- The `compute_stats` loop over the aligned batch. -/
def computeStatsZip (ctx : Bool) :
    List Str → List StatDict → List ContextDict → List (StatDict × ContextDict)
  | t :: ts, st :: ss, cx :: cs =>
      computeStatsOne ctx t st cx :: computeStatsZip ctx ts ss cs
  | _, _, _ => []

/-- `AverageLineLengthFilter.compute_stats(samples, context)`. -/
def compute_stats (ctx : Bool) (s : Samples) : Samples :=
  let r := computeStatsZip ctx s.text s.stats s.context
  { text := s.text, stats := r.map Prod.fst, context := r.map Prod.snd }

/-- The `samples[Fields.stats]` argument of `AverageLineLengthFilter.process`:
either a list of Stats records (batched) or a single record (ray filter). -/
inductive StatsInput where
  | batched : List StatDict → StatsInput
  | single : StatDict → StatsInput

/-- The value returned by `AverageLineLengthFilter.process`. -/
inductive ProcessResult where
  | bools : List Bool → ProcessResult
  | bool : Bool → ProcessResult
deriving DecidableEq

/-- One range decision `self.min_len <= stat[avg_line_length] <= self.max_len`;
`none` models the `KeyError` on a missing metric. -/
def keepOne (minLen maxLen : ℚ) (st : StatDict) : Option Bool :=
  (dictGet st avgLineLengthKey).map (fun m => decide (minLen ≤ m ∧ m ≤ maxLen))

/-- The batched loop of `process`, stopping at the first missing metric. -/
def keepAll (minLen maxLen : ℚ) : List StatDict → Option (List Bool)
  | [] => some []
  | st :: rest =>
      match keepOne minLen maxLen st, keepAll minLen maxLen rest with
      | some b, some bs => some (b :: bs)
      | _, _ => none

/-- `AverageLineLengthFilter.process(samples)`: dispatch on whether the stats
field is a list, returning one boolean per record (batched) or one boolean. -/
def filterProcess (minLen maxLen : ℚ) : StatsInput → Option ProcessResult
  | .batched l => (keepAll minLen maxLen l).map ProcessResult.bools
  | .single st => (keepOne minLen maxLen st).map ProcessResult.bool

/-- One `{role, content}` object of a chatml `messages` array. -/
structure ChatMessage where
  role : String
  content : Str
deriving DecidableEq

/-- The loop of `GenerateInstructionMapper.parse_chatml_str`: `u` is the
current `user_input` variable (`none` models Python `None`); every assistant
message appends the pair `(user_input, content)`. -/
def parseChatmlGo (u : Option Str) : List ChatMessage → List (Option Str × Str)
  | [] => []
  | m :: rest =>
      if m.role = "user" then parseChatmlGo (some m.content) rest
      else if m.role = "assistant" then
        (u, m.content) :: parseChatmlGo u rest
      else parseChatmlGo u rest

/-- `GenerateInstructionMapper.parse_chatml_str` applied to the decoded
`data['messages']` list (`json.loads` is the external collaborator). -/
def parse_chatml_str (messages : List ChatMessage) : List (Option Str × Str) :=
  parseChatmlGo none messages

/-- Error message of a `json.JSONDecodeError` raised by `json.loads`. -/
def jsonDecodeError : String := "JSONDecodeError"

/-- Error message raised by `GenerateInstructionMapper.__init__` when the seed
corpus is empty. -/
def noQAParsedError : String := "No QA data was parsed from the seed file!"

/-- Error message raised by `GenerateInstructionMapper.process` on an
unrecognized similarity type. -/
def simTypeError : String := "Not support similarity type"

/-- `GenerateInstructionMapper.load_seed_qa_samples(seed_file)`: strip each
line of the file, decode it (`jl` models `json.loads` plus the `messages`
field access; `none` models a raised decode error, which propagates), parse
its QA pairs and keep only records with at least one pair. -/
def load_seed_qa_samples (jl : Str → Option (List ChatMessage)) :
    List Str → Except String (List (List (Option Str × Str)))
  | [] => .ok []
  | line :: rest =>
      match jl (pyStrip line) with
      | none => .error jsonDecodeError
      | some record =>
          match load_seed_qa_samples jl rest with
          | .error e => .error e
          | .ok tail =>
              let qa := parse_chatml_str record
              .ok (if 0 < qa.length then qa :: tail else tail)

/-- The seed-corpus part of `GenerateInstructionMapper.__init__`: load the
seed file and raise when no QA data was parsed. -/
def initSeedQASamples (jl : Str → Option (List ChatMessage)) (lines : List Str) :
    Except String (List (List (Option Str × Str))) :=
  match load_seed_qa_samples jl lines with
  | .error e => .error e
  | .ok corpus => if corpus.length = 0 then .error noQAParsedError else .ok corpus

/-- `GenerateInstructionMapper.parse_response(response_str)` applied to the
match list produced by the external `re.findall` on the configured extraction
pattern: strip each captured question and answer, collect the pairs in match
order, and accumulate `question + '\n' + answer + '\n'`. -/
def parse_response : List (Str × Str) → List (Str × Str) × Str
  | [] => ([], [])
  | (q, a) :: rest =>
      let q' := pyStrip q
      let a' := pyStrip a
      let pr := parse_response rest
      ((q', a') :: pr.1, q' ++ '\n' :: (a' ++ '\n' :: pr.2))

/-- `GenerateInstructionMapper.max_rouge_l_score(reference, candidates)`:
running maximum, starting at `0.0`, of the score of each candidate against
the reference (`score` models the external `rouge` library). -/
def max_rouge_l_score (score : Str → Str → ℚ) (reference : Str)
    (candidates : List Str) : ℚ :=
  candidates.foldl (fun mx c => if score c reference > mx then score c reference else mx) 0

/-- One `{role, content}` object of the emitted `messages` array. -/
structure OutMessage where
  role : String
  content : Str
deriving DecidableEq

/-- The post-inference part of `GenerateInstructionMapper.process`: parse the
model response (`ms` is the `re.findall` match list), return an empty message
list when nothing was parsed, otherwise score the concatenated parse against
the reference samples and emit the pairs as alternating user/assistant
messages when the maximum similarity is at most the threshold, an empty
message list otherwise.  The returned list models the `messages` array of the
`json.dumps` output; `.error` models the raised `ValueError`. -/
def genProcess (score : Str → Str → ℚ) (similarityType : String)
    (referenceSamples : List Str) (similarityThreshold : ℚ)
    (ms : List (Str × Str)) : Except String (List OutMessage) :=
  let pr := parse_response ms
  if pr.2 = [] then .ok []
  else if similarityType = "rouge_l" then
    let simScore := max_rouge_l_score score pr.2 referenceSamples
    if simScore ≤ similarityThreshold then
      .ok (pr.1.flatMap (fun qa => [⟨"user", qa.1⟩, ⟨"assistant", qa.2⟩]))
    else .ok []
  else .error simTypeError

/-- A chatml record of strictly alternating user/assistant messages built
from a list of (question, answer) pairs; test input for the seed parser. -/
def alternatingRecord (ps : List (Str × Str)) : List ChatMessage :=
  ps.flatMap (fun p => [⟨"user", p.1⟩, ⟨"assistant", p.2⟩])

/-- A concrete stand-in for `json.loads`: rejects the empty string (which is
not valid JSON), decodes every other line to one fixed chatml record. -/
def jlStub : Str → Option (List ChatMessage) :=
  fun s => if s = [] then none
    else some [⟨"user", "q".toList⟩, ⟨"assistant", "r".toList⟩]

/-- A concrete stand-in for the rouge scorer that scores every pair `0`. -/
def scoreZero : Str → Str → ℚ := fun _ _ => 0

/-- A concrete one-sample batch with an empty Stats record. -/
def sampleBatch : Samples := ⟨["ab\ncd".toList], [[]], [[]]⟩

/-- A concrete one-sample batch whose metric is already computed. -/
def sampleBatchDone : Samples :=
  ⟨["ab".toList], [[(avgLineLengthKey, 7)]], [[]]⟩

lemma dictGet_dictSet_self {α : Type} (d : List (String × α)) (k : String) (v : α) :
    dictGet (dictSet d k v) k = some v := by
  induction d with
  | nil => simp [dictSet, dictGet]
  | cons p d ih =>
      by_cases h : p.1 == k
      · simp [dictSet, h, dictGet]
      · simp only [dictSet, h, Bool.false_eq_true, if_false]
        simpa [dictGet, List.find?, h] using ih

lemma dictContains_dictSet_self {α : Type} (d : List (String × α)) (k : String) (v : α) :
    dictContains (dictSet d k v) k = true := by
  induction d with
  | nil => simp [dictSet, dictContains]
  | cons p d ih =>
      by_cases h : p.1 == k
      · simp [dictSet, h, dictContains]
      · simp only [dictSet, h, Bool.false_eq_true, if_false]
        simpa [dictContains, h] using ih

lemma getD_map {α β : Type} (f : α → β) (d : α) :
    ∀ (l : List α) (i : ℕ), i < l.length → (l.map f).getD i (f d) = f (l.getD i d)
  | [], i, hi => by simp at hi
  | a :: l, 0, _ => rfl
  | a :: l, i + 1, hi => by
      simp only [List.map_cons, List.getD_cons_succ]
      exact getD_map f d l i (Nat.lt_of_succ_lt_succ hi)

lemma computeStatsZip_length (ctx : Bool) :
    ∀ (ts : List Str) (ss : List StatDict) (cs : List ContextDict),
      ss.length = ts.length → cs.length = ts.length →
      (computeStatsZip ctx ts ss cs).length = ts.length
  | [], _, _, _, _ => by simp [computeStatsZip]
  | t :: ts, [], cs, hs, hc => by simp at hs
  | t :: ts, st :: ss, [], hs, hc => by simp at hc
  | t :: ts, st :: ss, cx :: cs, hs, hc => by
      simpa [computeStatsZip] using
        computeStatsZip_length ctx ts ss cs (by simpa using hs) (by simpa using hc)

lemma computeStatsZip_getD (ctx : Bool) :
    ∀ (ts : List Str) (ss : List StatDict) (cs : List ContextDict) (i : ℕ),
      ss.length = ts.length → cs.length = ts.length → i < ts.length →
      (computeStatsZip ctx ts ss cs).getD i ([], []) =
        computeStatsOne ctx (ts.getD i []) (ss.getD i []) (cs.getD i [])
  | [], _, _, _, _, _, hi => by simp at hi
  | t :: ts, [], cs, i, hs, _, _ => by simp at hs
  | t :: ts, st :: ss, [], i, _, hc, _ => by simp at hc
  | t :: ts, st :: ss, cx :: cs, 0, _, _, _ => rfl
  | t :: ts, st :: ss, cx :: cs, i + 1, hs, hc, hi => by
      simpa [computeStatsZip] using
        computeStatsZip_getD ctx ts ss cs i (by simpa using hs) (by simpa using hc)
          (by simpa using hi)

lemma compute_stats_stats_getD (ctx : Bool) (s : Samples) (i : ℕ)
    (hs : s.stats.length = s.text.length) (hc : s.context.length = s.text.length)
    (hi : i < s.text.length) :
    (compute_stats ctx s).stats.getD i [] =
      (computeStatsOne ctx (s.text.getD i []) (s.stats.getD i []) (s.context.getD i [])).1 := by
  have hlen := computeStatsZip_length ctx s.text s.stats s.context hs hc
  have h1 :
      ((computeStatsZip ctx s.text s.stats s.context).map Prod.fst).getD i
        (Prod.fst (([], []) : StatDict × ContextDict)) =
      Prod.fst ((computeStatsZip ctx s.text s.stats s.context).getD i ([], [])) :=
    getD_map Prod.fst ([], []) _ i (by rw [hlen]; exact hi)
  have h2 := computeStatsZip_getD ctx s.text s.stats s.context i hs hc hi
  rw [h2] at h1
  simpa [compute_stats] using h1

lemma computeStatsOne_of_contains (ctx : Bool) (t : Str) (st : StatDict) (cx : ContextDict)
    (h : dictContains st avgLineLengthKey = true) :
    computeStatsOne ctx t st cx = (st, cx) := by
  simp [computeStatsOne, h]

lemma computeStatsOne_fst_contains (ctx : Bool) (t : Str) (st : StatDict) (cx : ContextDict) :
    dictContains (computeStatsOne ctx t st cx).1 avgLineLengthKey = true := by
  by_cases h : dictContains st avgLineLengthKey = true
  · simp [computeStatsOne, h]
  · simp only [computeStatsOne, h, Bool.false_eq_true, if_false]
    exact dictContains_dictSet_self _ _ _

lemma computeStatsZip_idem (ctx : Bool) :
    ∀ (ts : List Str) (ss : List StatDict) (cs : List ContextDict),
      computeStatsZip ctx ts ((computeStatsZip ctx ts ss cs).map Prod.fst)
        ((computeStatsZip ctx ts ss cs).map Prod.snd) = computeStatsZip ctx ts ss cs
  | [], _, _ => rfl
  | t :: ts, [], cs => rfl
  | t :: ts, st :: ss, [] => rfl
  | t :: ts, st :: ss, cx :: cs => by
      simp only [computeStatsZip, List.map_cons]
      refine congrArg₂ _ ?_ (computeStatsZip_idem ctx ts ss cs)
      rw [computeStatsOne_of_contains ctx t _ _ (computeStatsOne_fst_contains ctx t st cx)]

lemma keepAll_eq_map (minLen maxLen : ℚ) :
    ∀ (l : List StatDict), (∀ d ∈ l, (dictGet d avgLineLengthKey).isSome) →
      keepAll minLen maxLen l = some (l.map fun d =>
        decide (minLen ≤ (dictGet d avgLineLengthKey).getD 0 ∧
          (dictGet d avgLineLengthKey).getD 0 ≤ maxLen))
  | [], _ => rfl
  | d :: l, h => by
      obtain ⟨m, hm⟩ := Option.isSome_iff_exists.mp (h d (by simp))
      have ht := keepAll_eq_map minLen maxLen l (fun x hx => h x (by simp [hx]))
      simp [keepAll, keepOne, hm, ht]

lemma parse_response_snd_ne_nil (ms : List (Str × Str)) (h : ms ≠ []) :
    (parse_response ms).2 ≠ [] := by
  cases ms with
  | nil => exact absurd rfl h
  | cons p rest =>
      obtain ⟨q, a⟩ := p
      simp only [parse_response]
      cases hq : pyStrip q <;> simp

lemma parseChatmlGo_alternating :
    ∀ (u : Option Str) (ps : List (Str × Str)),
      parseChatmlGo u (alternatingRecord ps) = ps.map (fun p => (some p.1, p.2))
  | u, [] => rfl
  | u, p :: ps => by
      have ih := parseChatmlGo_alternating (some p.1) ps
      show parseChatmlGo u
          ({role := "user", content := p.1} :: {role := "assistant", content := p.2} ::
            alternatingRecord ps) = _
      simp [parseChatmlGo, ih]

lemma load_seed_eq (jl : Str → Option (List ChatMessage)) :
    ∀ (lines : List Str), (∀ l ∈ lines, (jl (pyStrip l)).isSome) →
      load_seed_qa_samples jl lines =
        .ok ((lines.map (fun l => parse_chatml_str ((jl (pyStrip l)).getD []))).filter
          (fun qa => decide (0 < qa.length)))
  | [], _ => rfl
  | line :: rest, h => by
      obtain ⟨r, hr⟩ := Option.isSome_iff_exists.mp (h line (by simp))
      have ht := load_seed_eq jl rest (fun x hx => h x (by simp [hx]))
      simp only [load_seed_qa_samples, hr, ht, List.map_cons, List.filter_cons, hr,
        Option.getD_some]
      by_cases hq : 0 < (parse_chatml_str r).length
      · simp [hq]
      · simp [hq]

/-- C1: for every sample of an aligned batch whose Stats record does not yet
hold the metric, `compute_stats` stores as `avg_line_length` exactly
`len(T) / L`, where `L` is the number of lines of `T` under `splitlines`,
whenever `L > 0`, and exactly `0.0` when `L = 0`. -/
theorem compute_stats_stores_avg_line_length (s : Samples) (i : ℕ)
    (hs : s.stats.length = s.text.length) (hc : s.context.length = s.text.length)
    (hi : i < s.text.length)
    (hnew : dictContains (s.stats.getD i []) avgLineLengthKey = false) :
    dictGet ((compute_stats false s).stats.getD i []) avgLineLengthKey =
      some (if (splitlines (s.text.getD i [])).length = 0 then (0 : ℚ)
        else ((s.text.getD i []).length : ℚ) /
          ((splitlines (s.text.getD i [])).length : ℚ)) := by
  rw [compute_stats_stats_getD false s i hs hc hi]
  simp only [computeStatsOne, hnew, Bool.false_eq_true, if_false, Bool.false_and,
    Bool.not_false, dictGet_dictSet_self]
  by_cases hL : (splitlines (s.text.getD i [])).length = 0
  · simp [hL]
  · simp [hL]

/-- Witness for C1 at a concrete two-line text of length five. -/
theorem compute_stats_stores_avg_line_length_witness :
    dictGet ((compute_stats false sampleBatch).stats.getD 0 []) avgLineLengthKey =
      some ((5 : ℚ) / 2) := by
  have h := compute_stats_stores_avg_line_length sampleBatch 0 rfl rfl
    (by decide) (by decide)
  rw [h, show (splitlines (sampleBatch.text.getD 0 [])).length = 2 from rfl,
    show (sampleBatch.text.getD 0 []).length = 5 from rfl]
  norm_num

/-- C6: on an aligned batch, a Stats record that already holds the
`avg_line_length` key is left unchanged by `compute_stats`, and running
`compute_stats` twice yields the same batch as running it once. -/
theorem compute_stats_idempotent (ctx : Bool) (s : Samples) (i : ℕ)
    (hs : s.stats.length = s.text.length) (hc : s.context.length = s.text.length)
    (hi : i < s.text.length) :
    (dictContains (s.stats.getD i []) avgLineLengthKey = true →
      (compute_stats ctx s).stats.getD i [] = s.stats.getD i []) ∧
    compute_stats ctx (compute_stats ctx s) = compute_stats ctx s := by
  constructor
  · intro h
    rw [compute_stats_stats_getD ctx s i hs hc hi,
      computeStatsOne_of_contains ctx _ _ _ h]
  · simp [compute_stats, computeStatsZip_idem]

/-- Witness for C6 at a concrete batch whose metric is precomputed. -/
theorem compute_stats_idempotent_witness :
    (compute_stats false sampleBatchDone).stats.getD 0 [] =
      sampleBatchDone.stats.getD 0 [] ∧
    compute_stats false (compute_stats false sampleBatchDone) =
      compute_stats false sampleBatchDone := by
  have h := compute_stats_idempotent false sampleBatchDone 0 rfl rfl (by decide)
  exact ⟨h.1 (by decide), h.2⟩

/-- C3: for a sample whose Stats record holds the computed metric, the
batched invocation and the single-sample invocation of `process` return the
same keep/drop decision for that sample. -/
theorem process_batched_single_agree (minLen maxLen : ℚ) (l : List StatDict)
    (i : ℕ) (hi : i < l.length)
    (hl : ∀ d ∈ l, (dictGet d avgLineLengthKey).isSome) :
    filterProcess minLen maxLen (.batched l) =
      some (.bools (l.map fun d =>
        decide (minLen ≤ (dictGet d avgLineLengthKey).getD 0 ∧
          (dictGet d avgLineLengthKey).getD 0 ≤ maxLen))) ∧
    filterProcess minLen maxLen (.single (l.getD i [])) =
      some (.bool
        (decide (minLen ≤ (dictGet (l.getD i []) avgLineLengthKey).getD 0 ∧
          (dictGet (l.getD i []) avgLineLengthKey).getD 0 ≤ maxLen))) := by
  constructor
  · simp [filterProcess, keepAll_eq_map minLen maxLen l hl]
  · have hmem : l.getD i [] ∈ l := by
      rw [List.getD_eq_getElem l [] hi]
      exact List.getElem_mem hi
    obtain ⟨m, hm⟩ := Option.isSome_iff_exists.mp (hl _ hmem)
    simp only [filterProcess, keepOne, hm, Option.map_some', Option.getD_some]

/-- Witness for C3 at a concrete one-record batch with metric value 15. -/
theorem process_batched_single_agree_witness :
    filterProcess 10 20 (.batched [[(avgLineLengthKey, 15)]]) =
      some (.bools [true]) ∧
    filterProcess 10 20 (.single [(avgLineLengthKey, 15)]) =
      some (.bool true) := by
  have h := process_batched_single_agree 10 20 [[(avgLineLengthKey, 15)]] 0
    (by decide) (by decide)
  exact ⟨h.1.trans (by rfl), h.2.trans (by rfl)⟩

/-- C5: a sample is kept exactly when `min_len ≤ metric ≤ max_len`, both
bounds inclusive, and the batched mode returns one boolean per sample in the
order of the input stats list. -/
theorem filter_keep_iff_in_range (minLen maxLen : ℚ) (l : List StatDict)
    (st : StatDict) (m : ℚ)
    (hl : ∀ d ∈ l, (dictGet d avgLineLengthKey).isSome)
    (hm : dictGet st avgLineLengthKey = some m) :
    filterProcess minLen maxLen (.batched l) =
      some (.bools (l.map fun d =>
        decide (minLen ≤ (dictGet d avgLineLengthKey).getD 0 ∧
          (dictGet d avgLineLengthKey).getD 0 ≤ maxLen))) ∧
    (filterProcess minLen maxLen (.single st) = some (.bool true) ↔
      (minLen ≤ m ∧ m ≤ maxLen)) := by
  constructor
  · simp [filterProcess, keepAll_eq_map minLen maxLen l hl]
  · simp [filterProcess, keepOne, hm]

/-- Witness for C5 at a concrete two-record batch with metrics 15 and 3. -/
theorem filter_keep_iff_in_range_witness :
    filterProcess 10 20 (.batched [[(avgLineLengthKey, 15)], [(avgLineLengthKey, 3)]]) =
      some (.bools [true, false]) ∧
    (filterProcess 10 20 (.single [(avgLineLengthKey, 15)]) = some (.bool true) ↔
      ((10 : ℚ) ≤ 15 ∧ (15 : ℚ) ≤ 20)) := by
  have h := filter_keep_iff_in_range 10 20
    [[(avgLineLengthKey, 15)], [(avgLineLengthKey, 3)]] [(avgLineLengthKey, 15)] 15
    (by decide) (by rfl)
  exact ⟨h.1.trans (by rfl), h.2⟩

/-- C9: widening the configured bounds never turns a keep into a drop. -/
theorem filter_decision_monotone (minLen maxLen minLen' maxLen' : ℚ)
    (st : StatDict) (h1 : minLen' ≤ minLen) (h2 : maxLen ≤ maxLen')
    (hk : filterProcess minLen maxLen (.single st) = some (.bool true)) :
    filterProcess minLen' maxLen' (.single st) = some (.bool true) := by
  cases hg : dictGet st avgLineLengthKey with
  | none => simp [filterProcess, keepOne, hg] at hk
  | some m =>
      simp only [filterProcess, keepOne, hg, Option.map_some', Option.some.injEq,
        ProcessResult.bool.injEq, decide_eq_true_eq] at hk ⊢
      exact ⟨le_trans h1 hk.1, le_trans hk.2 h2⟩

/-- Witness for C9: metric 15 kept under bounds 10..20 is kept under 5..30. -/
theorem filter_decision_monotone_witness :
    filterProcess 5 30 (.single [(avgLineLengthKey, 15)]) = some (.bool true) :=
  filter_decision_monotone 10 20 5 30 [(avgLineLengthKey, 15)]
    (by decide) (by decide) (by decide)

/-- C4 counterexample: `parse_chatml_str` emits a pair at an assistant
message even though no user message has been seen, with a null question. -/
theorem parse_chatml_pair_without_user :
    parse_chatml_str [⟨"assistant", "hi".toList⟩] = [(none, "hi".toList)] := rfl

/-- C4 amended: the parser emits a pair at every assistant message, pairing
it with the most recent user message seen so far, or a null question when no
user message precedes; order is preserved, and a record with N alternating
user/assistant pairs yields exactly those N pairs in order. -/
theorem parse_chatml_alternating_pairs :
    (∀ ps : List (Str × Str),
      parse_chatml_str (alternatingRecord ps) = ps.map (fun p => (some p.1, p.2))) ∧
    (∀ u₁ u₂ a : Str,
      parse_chatml_str [⟨"user", u₁⟩, ⟨"user", u₂⟩, ⟨"assistant", a⟩] =
        [(some u₂, a)]) ∧
    (∀ a : Str, parse_chatml_str [⟨"assistant", a⟩] = [(none, a)]) := by
  refine ⟨fun ps => parseChatmlGo_alternating none ps,
    fun u₁ u₂ a => ?_, fun a => ?_⟩ <;> rfl

/-- C2: when at least one QA pair was parsed, the mapper emits exactly the
extracted pairs as alternating user/assistant messages in extraction order
when the maximum similarity against the reference samples is at most the
threshold, and an empty messages array when it exceeds the threshold. -/
theorem gen_process_emit_or_reject (score : Str → Str → ℚ) (refs : List Str)
    (threshold : ℚ) (ms : List (Str × Str)) (hne : ms ≠ []) :
    (max_rouge_l_score score (parse_response ms).2 refs ≤ threshold →
      genProcess score "rouge_l" refs threshold ms =
        .ok ((parse_response ms).1.flatMap
          (fun qa => [⟨"user", qa.1⟩, ⟨"assistant", qa.2⟩]))) ∧
    (threshold < max_rouge_l_score score (parse_response ms).2 refs →
      genProcess score "rouge_l" refs threshold ms = .ok []) := by
  have hrs := parse_response_snd_ne_nil ms hne
  constructor
  · intro hle
    simp [genProcess, hrs, hle]
  · intro hgt
    simp [genProcess, hrs, not_le.mpr hgt]

/-- Witness for C2 at one extracted pair scored 0 against no references. -/
theorem gen_process_emit_or_reject_witness :
    genProcess scoreZero "rouge_l" [] 0 [("q".toList, "a".toList)] =
      .ok [⟨"user", "q".toList⟩, ⟨"assistant", "a".toList⟩] := by
  have h := (gen_process_emit_or_reject scoreZero [] 0 [("q".toList, "a".toList)]
    (by simp)).1 (by simp [max_rouge_l_score])
  exact h.trans (by rfl)

/-- C8: when zero QA pairs are extracted, the mapper returns without error a
well-formed container with an empty messages array. -/
theorem gen_process_no_pairs_empty_messages (score : Str → Str → ℚ)
    (similarityType : String) (refs : List Str) (threshold : ℚ) :
    genProcess score similarityType refs threshold [] = .ok [] := rfl

/-- C7: the seed loader keeps exactly the records with at least one QA pair,
and construction fails with a fatal error, never silently, when the loaded
corpus is empty. -/
theorem seed_corpus_drops_empty_and_init_raises
    (jl : Str → Option (List ChatMessage)) (lines : List Str)
    (h : ∀ l ∈ lines, (jl (pyStrip l)).isSome) :
    load_seed_qa_samples jl lines =
      .ok ((lines.map (fun l => parse_chatml_str ((jl (pyStrip l)).getD []))).filter
        (fun qa => decide (0 < qa.length))) ∧
    ((lines.map (fun l => parse_chatml_str ((jl (pyStrip l)).getD []))).filter
        (fun qa => decide (0 < qa.length)) = [] →
      initSeedQASamples jl lines = .error noQAParsedError) ∧
    (∀ corpus, initSeedQASamples jl lines = .ok corpus → corpus ≠ []) := by
  have hload := load_seed_eq jl lines h
  refine ⟨hload, fun hempty => ?_, fun corpus hc => ?_⟩
  · simp [initSeedQASamples, hload, hempty]
  · intro heq
    subst heq
    unfold initSeedQASamples at hc
    cases hl2 : load_seed_qa_samples jl lines with
    | error e => rw [hl2] at hc; exact absurd hc (by simp)
    | ok corpus0 =>
        rw [hl2] at hc
        by_cases hz : corpus0.length = 0
        · simp [hz] at hc
        · simp [hz] at hc
          exact hz (by simp [hc])

/-- Witness for C7 at a one-line seed file whose record parses to one pair. -/
theorem seed_corpus_drops_empty_and_init_raises_witness :
    load_seed_qa_samples jlStub ["a".toList] =
      .ok [[(some "q".toList, "r".toList)]] := by
  have h := (seed_corpus_drops_empty_and_init_raises jlStub ["a".toList]
    (by decide)).1
  exact h.trans (by rfl)

/-- C10: a seed file containing a blank line fails to load: the loader strips
the line and passes the empty string to the JSON parser unconditionally, and
the parser rejects the empty string. -/
theorem blank_line_raises_on_parse (jl : Str → Option (List ChatMessage)) :
    ∀ (lines : List Str), (∃ l ∈ lines, pyStrip l = []) → jl [] = none →
      ∃ e, load_seed_qa_samples jl lines = .error e
  | [], hblank, _ => by simp at hblank
  | line :: rest, hblank, hjl => by
      obtain ⟨l, hl, hpl⟩ := hblank
      rcases List.mem_cons.mp hl with hcase | hcase
      · refine ⟨jsonDecodeError, ?_⟩
        rw [hcase] at hpl
        simp [load_seed_qa_samples, hpl, hjl]
      · cases hj : jl (pyStrip line) with
        | none => exact ⟨jsonDecodeError, by simp [load_seed_qa_samples, hj]⟩
        | some r =>
            obtain ⟨e, he⟩ := blank_line_raises_on_parse jl rest ⟨l, hcase, hpl⟩ hjl
            exact ⟨e, by simp [load_seed_qa_samples, hj, he]⟩

/-- Witness for C10 at a seed file consisting of one blank line. -/
theorem blank_line_raises_on_parse_witness :
    ∃ e, load_seed_qa_samples jlStub ["\n".toList] = .error e :=
  blank_line_raises_on_parse jlStub ["\n".toList]
    ⟨"\n".toList, by decide, by rfl⟩ (by rfl)

end DataJuicer
